import Mathlib

/-!
Verification of the schema-agnostic table-to-knowledge-graph converter
(`src/kg_converter/dynamic_converter.py`), the SQLite schema introspector
(`src/ingestion/dynamic_ingestor.py`) and the dual-path query orchestrator
(`src/query_layer/llm_orchestrator.py`).

Modelling conventions:
* Python strings are modelled as lists of Unicode codepoints (`CP := List Nat`);
  `str.lower()` / `str.upper()` are modelled on the ASCII letter ranges, which is
  exact for every identifier the code manipulates and conservative elsewhere
  (no codepoint's lower-case image contains an upper-case ASCII letter).
* SQLite/pandas cell values are a tagged union `Val` of integers and text;
  `NULL`/`NaN` is `Option.none` at the column level.
* Python float comparisons `match_count / len(sample) > 0.3` (with `len ≤ 10`)
  and `unique_count < total_rows * 0.1` are replaced by the exact integer
  inequalities `10 * match_count > 3 * len` and `10 * unique_count < total_rows`;
  for these operand ranges IEEE-754 double rounding never crosses either
  boundary, so the integer forms agree with the Python ones.
* The ad hoc SQL verification query (`SELECT COUNT(*) FROM target WHERE pk IN
  (...)`) is modelled as an oracle `Chk : List Val → Except Unit Nat`; an
  `Except.error` models the query raising (e.g. a malformed generated
  comparison), mirroring the `try/except` in `_detect_fk_to_target`.
* Neo4j `MATCH ... MATCH ... MERGE` with an unmatched pattern succeeds with
  zero rows; it is not an error.  This is reflected in `createFkRels`.
-/

/-- Codepoint string: the model of a Python `str`. -/
abbrev CP := List Nat

/-- Embed a Lean string literal as its list of codepoints. -/
def cps (s : String) : CP := s.toList.map Char.toNat

/-- ASCII model of Python `str.lower()` on one codepoint. -/
def lowerCp (n : Nat) : Nat := if 65 ≤ n ∧ n ≤ 90 then n + 32 else n

/-- ASCII model of Python `str.upper()` on one codepoint. -/
def upperCp (n : Nat) : Nat := if 97 ≤ n ∧ n ≤ 122 then n - 32 else n

/-- Model of Python `str.lower()`. -/
def pyLower (s : CP) : CP := s.map lowerCp

/-- Model of Python `str.upper()`. -/
def pyUpper (s : CP) : CP := s.map upperCp

/-- Characters admitted by the sanitizer's regex class `[a-zA-Z0-9_]`
(`re.sub(r'[^a-zA-Z0-9_]', '_', name)`). -/
def safeChar (n : Nat) : Bool :=
  (48 ≤ n && n ≤ 57) || (65 ≤ n && n ≤ 90) || (97 ≤ n && n ≤ 122) || n == 95

/-- Model of `DynamicKGConverter._safe_label`:
`re.sub(r'[^a-zA-Z0-9_]', '_', name)[:63]`. -/
def safeLabel (s : CP) : CP :=
  (s.map (fun n => if safeChar n then n else 95)).take 63

/-- Model of `DynamicKGConverter._safe_property` (same body as `_safe_label`). -/
def safeProperty (s : CP) : CP :=
  (s.map (fun n => if safeChar n then n else 95)).take 63

/-- Does the list start with the given needle (model of a match at offset 0)? -/
def startsWithSeq : CP → CP → Bool
  | _, [] => true
  | [], _ :: _ => false
  | a :: as, b :: bs => a == b && startsWithSeq as bs

/-- Model of the Python substring test `needle in haystack`
(first argument: haystack). -/
def containsSeq : CP → CP → Bool
  | [], needle => needle.isEmpty
  | a :: as, needle => startsWithSeq (a :: as) needle || containsSeq as needle

deriving instance DecidableEq for Except

/-- A SQLite/pandas cell value: integer or text. -/
inductive Val where
  | vint : Int → Val
  | vtext : CP → Val
deriving DecidableEq, Repr

/-- Fuel-driven digit expansion (structural recursion so that concrete
instances evaluate definitionally). -/
def natToDigitsAux : Nat → Nat → CP
  | 0, _ => []
  | fuel + 1, n =>
    if n < 10 then [48 + n] else natToDigitsAux fuel (n / 10) ++ [48 + n % 10]

/-- Decimal digits (as codepoints, most significant first) of a natural. -/
def natToDigits (n : Nat) : CP := natToDigitsAux (n + 1) n

/-- Model of Python `str(value)` for the cell values we track. -/
def pyStr : Val → CP
  | .vtext s => s
  | .vint i => if i < 0 then 45 :: natToDigits i.natAbs else natToDigits i.natAbs

/-- ASCII whitespace, the codepoints removed by `str.strip()`. -/
def isSpaceCp (n : Nat) : Bool :=
  n == 32 || n == 9 || n == 10 || n == 13 || n == 11 || n == 12

/-- Model of Python `str.strip()`. -/
def pyStrip (s : CP) : CP :=
  ((s.dropWhile isSpaceCp).reverse.dropWhile isSpaceCp).reverse

/-- Generic first-occurrence deduplication (used for `pandas.unique` and for
the effect of Neo4j `MERGE` on repeated identical upserts). -/
def dedupFirstAux [DecidableEq α] : List α → List α → List α
  | [], _ => []
  | a :: rest, seen =>
    if a ∈ seen then dedupFirstAux rest seen else a :: dedupFirstAux rest (a :: seen)

/-- First-occurrence deduplication of a list. -/
def dedupFirst [DecidableEq α] (l : List α) : List α := dedupFirstAux l []

/-- Model of `pandas.Series.unique()`: distinct values in first-occurrence
order. -/
def pdUnique (l : List Val) : List Val := dedupFirst l

/-- Model of `Series.dropna().unique()` on a column of optional values. -/
def dropnaUnique (vals : List (Option Val)) : List Val :=
  pdUnique (vals.filterMap id)

/-- Model of `Series.nunique()` (distinct non-null values). -/
def nunique (vals : List (Option Val)) : Nat := (dropnaUnique vals).length

/-- The name-pattern rule of `_detect_fk_to_target`: the lower-cased column
name contains one of `f'{target.lower()}_id'`, `f'{target.lower()}_ID'`, or
the lower-cased target primary-key name. -/
def namePatternMatch (colName tname tpk : CP) : Bool :=
  let colLower := pyLower colName
  containsSeq colLower (pyLower tname ++ cps "_id") ||
  containsSeq colLower (pyLower tname ++ cps "_ID") ||
  containsSeq colLower (pyLower tpk)

/-- The two-pattern variant the spec claims the three-pattern test is
extensionally equal to (the `'<t>_ID'` pattern dropped). -/
def namePatternMatchTwo (colName tname tpk : CP) : Bool :=
  let colLower := pyLower colName
  containsSeq colLower (pyLower tname ++ cps "_id") ||
  containsSeq colLower (pyLower tpk)

example : cps "_ID" = [95, 73, 68] := by decide
example : pyLower (cps "Emp_ID") = cps "emp_id" := by decide
example : safeLabel (cps "a b-c") = cps "a_b_c" := by decide
example : containsSeq (cps "customer_id") (cps "er_id") = true := by decide
example : containsSeq (cps "customer_id") (cps "order_id") = false := by decide
example : pdUnique [Val.vint 1, Val.vint 2, Val.vint 1] = [Val.vint 1, Val.vint 2] := by decide
example : pyStr (Val.vint (-41)) = cps "-41" := by decide
example : pyStrip (cps "  x ") = cps "x" := by decide

/-- A source-table column as `_detect_fk_to_target` sees it: its name, the
SQLite `PRAGMA table_info` primary-key flag, and its per-row values
(`none` = NULL/NaN). -/
structure SrcColumn where
  name : CP
  pkFlag : Nat := 0
  vals : List (Option Val)
deriving DecidableEq, Repr

/-- A source table: its name and its columns (all value lists row-aligned). -/
structure SrcTable where
  name : CP
  cols : List SrcColumn
deriving DecidableEq, Repr

/-- Row count of a table (`len(source_df)`). -/
def nRows (t : SrcTable) : Nat :=
  match t.cols with
  | [] => 0
  | c :: _ => c.vals.length

/-- Values of a named column of a table (total stand-in for `df[col]`; the
callers only use names of existing columns). -/
def colVals (t : SrcTable) (cname : CP) : List (Option Val) :=
  match t.cols.find? (fun c => c.name == cname) with
  | some c => c.vals
  | none => List.replicate (nRows t) none

/-- The behaviour of one ad hoc SQLite verification query
(`SELECT COUNT(*) FROM target WHERE pk IN (sample)`): either a row count or a
raised exception (`Except.error`). -/
abbrev Chk := List Val → Except Unit Nat

/-- The verification query evaluated against an actual target key column:
counts target rows whose key value occurs in the sample (the well-formed,
non-raising case). -/
def pureChk (targetKeys : List Val) : Chk :=
  fun sample => .ok ((targetKeys.filter (fun v => sample.contains v)).length)

/-- Model of a Python `try/except` block around an `Except` computation. -/
def exceptCatch (m : Except Unit (Option CP)) : Except Unit (Option CP) :=
  match m with
  | .error _ => .ok none
  | .ok a => .ok a

/-- The single-candidate body of the name-pattern rule's `try` block: run the
verification query on the sample and return the column name when the match
fraction strictly exceeds 0.3 (`match_count / len(sample) > 0.3`, exactly
`10 * match_count > 3 * len(sample)` for `len ≤ 10`). -/
def primaryTryBody (cname : CP) (sample : List Val) (chk : Chk) :
    Except Unit (Option CP) := do
  let mc ← chk sample
  pure (if 10 * mc > 3 * sample.length then some cname else none)

/-- First loop of `_detect_fk_to_target` (the name-pattern rule): scan the
columns in order; for a column whose lower-cased name contains a pattern,
sample the first 10 distinct non-null values and accept on match fraction
`> 0.3`; a raised verification query is caught and the scan continues. -/
def detectPrimary : List SrcColumn → CP → CP → Chk → Except Unit (Option CP)
  | [], _, _, _ => .ok none
  | c :: rest, tname, tpk, chk =>
    if namePatternMatch c.name tname tpk then
      let uniqueVals := dropnaUnique c.vals
      if uniqueVals.length = 0 then detectPrimary rest tname tpk chk
      else
        let sample := uniqueVals.take 10
        match exceptCatch (primaryTryBody c.name sample chk) with
        | .ok (some n) => .ok (some n)
        | .ok none => detectPrimary rest tname tpk chk
        | .error e => .error e
    else detectPrimary rest tname tpk chk

/-- The single-candidate body of the fallback rule's `try` block: accept on any
match (`match_count > 0`). -/
def fallbackTryBody (cname : CP) (sample : List Val) (chk : Chk) :
    Except Unit (Option CP) := do
  let mc ← chk sample
  pure (if mc > 0 then some cname else none)

/-- Second loop of `_detect_fk_to_target` (the fallback cardinality rule): a
column with more than one distinct value and fewer distinct values than 10% of
the row count (`unique_count < total_rows * 0.1`, exactly
`10 * unique_count < total_rows`) is verified on the first **5** distinct
non-null values and accepted on any match; a raised query is caught and the
scan continues. -/
def detectFallback : List SrcColumn → Nat → Chk → Except Unit (Option CP)
  | [], _, _ => .ok none
  | c :: rest, totalRows, chk =>
    let uniqueCount := nunique c.vals
    if 10 * uniqueCount < totalRows ∧ uniqueCount > 1 then
      let sample := (dropnaUnique c.vals).take 5
      if sample.length > 0 then
        match exceptCatch (fallbackTryBody c.name sample chk) with
        | .ok (some n) => .ok (some n)
        | .ok none => detectFallback rest totalRows chk
        | .error e => .error e
      else detectFallback rest totalRows chk
    else detectFallback rest totalRows chk

/-- Model of `_detect_fk_to_target`: the name-pattern rule first, then the
fallback cardinality rule, `none` when neither accepts a column. -/
def detectFkToTarget (cols : List SrcColumn) (totalRows : Nat) (tname tpk : CP)
    (chk : Chk) : Except Unit (Option CP) := do
  let r ← detectPrimary cols tname tpk chk
  match r with
  | some c => pure (some c)
  | none => detectFallback cols totalRows chk

/-- The (total) value of `_detect_fk_to_target`; `detectFkToTarget` is proved
to always return `Except.ok` of this. -/
def detectFkToTargetP (cols : List SrcColumn) (totalRows : Nat)
    (tname tpk : CP) (chk : Chk) : Option CP :=
  match detectFkToTarget cols totalRows tname tpk chk with
  | .ok o => o
  | .error _ => none

/-- A materialized reference edge:
`(source_label, source_id) -[rel_type]-> (target_label, target_id)`. -/
structure FkEdge where
  srcLabel : CP
  srcId : Val
  relType : CP
  tgtLabel : CP
  tgtId : Val
deriving DecidableEq, Repr

/-- The relationship-type name `_create_fk_rels` derives from the column name:
`f"REFERENCES_{self._safe_label(fk_col.upper())}"`. -/
def fkRelType (fkCol : CP) : CP := cps "REFERENCES_" ++ safeLabel (pyUpper fkCol)

/-- One row's edge-creation step of `_create_fk_rels`: the
`MATCH source MATCH target MERGE edge` query succeeds whether or not the
patterns match; an edge is added only when both endpoint nodes exist, and
`created_count` is incremented on every (non-raising) run. -/
def fkRelStep (nodes : List (CP × Val)) (srcLabel tgtLabel relType : CP)
    (acc : List FkEdge × Nat) (row : Option Val × Option Val) :
    List FkEdge × Nat :=
  match row.2 with
  | none => acc
  | some tgtId =>
    let edges :=
      match row.1 with
      | some srcId =>
        if (srcLabel, srcId) ∈ nodes ∧ (tgtLabel, tgtId) ∈ nodes then
          let e : FkEdge := ⟨srcLabel, srcId, relType, tgtLabel, tgtId⟩
          if e ∈ acc.1 then acc.1 else acc.1 ++ [e]
        else acc.1
      | none => acc.1
    (edges, acc.2 + 1)

/-- Model of `_create_fk_rels`: the SQL filter `WHERE fk_col IS NOT NULL`
followed by one `MATCH/MATCH/MERGE` per remaining row.  `rows` pairs each
row's primary-key value with its foreign-key column value; `nodes` is the set
of `(label, key)` entity nodes existing in the graph.  Returns the edges
created and the returned `created_count`. -/
def createFkRels (nodes : List (CP × Val)) (srcLabel tgtLabel relType : CP)
    (rows : List (Option Val × Option Val)) : List FkEdge × Nat :=
  (rows.filter (fun r => r.2.isSome)).foldl
    (fkRelStep nodes srcLabel tgtLabel relType) ([], 0)

example :
    detectFkToTargetP
      [⟨cps "customer_id", 0, [some (.vint 1), some (.vint 2), some (.vint 2)]⟩]
      3 (cps "customers") (cps "customer_id")
      (pureChk [.vint 1, .vint 2, .vint 3]) = some (cps "customer_id") := by
  decide

example :
    createFkRels [(cps "emp", .vint 1), (cps "emp", .vint 2)]
      (cps "emp") (cps "emp") (cps "REFERENCES_X")
      [(some (.vint 1), some (.vint 2)), (some (.vint 2), some (.vint 9))] =
    ([⟨cps "emp", .vint 1, cps "REFERENCES_X", cps "emp", .vint 2⟩], 2) := by
  decide

/-- Model of `DynamicIngestor`'s primary-key detection:
`next((c['name'] for c in columns if c['pk']), columns[0]['name'] if columns
else None)`. -/
def autoPk (cols : List SrcColumn) : Option CP :=
  match cols.find? (fun c => c.pkFlag != 0) with
  | some c => some c.name
  | none => cols.head?.map (fun c => c.name)

/-- The primary key the converter uses for a table (`schema['primary_key']`);
tables in scope always have at least one column, so the default is unused. -/
def tablePk (t : SrcTable) : CP := (autoPk t.cols).getD []

/-- The typed error of `ingest_all_tables`
(`FileNotFoundError` when `os.path.exists` fails). -/
inductive IngestError where
  | fileNotFound
deriving DecidableEq, Repr

/-- One table's entry of the schema dictionary `ingest_all_tables` builds. -/
structure SchemaEntry where
  tname : CP
  primaryKey : Option CP
  rowCount : Nat
deriving DecidableEq, Repr

/-- Model of `DynamicIngestor.ingest_all_tables`: `none` stands for an
unreachable database path (the `os.path.exists` check fails and
`FileNotFoundError` is raised); otherwise every table is described by
read-only queries (`PRAGMA table_info`, `COUNT(*)`, `LIMIT 5` sample) and no
write is performed. -/
def ingestAllTables : Option (List SrcTable) → Except IngestError (List SchemaEntry)
  | none => .error .fileNotFound
  | some db => .ok (db.map (fun t => ⟨t.name, autoPk t.cols, nRows t⟩))

/-- The fixed priority list `categorical_cols` of
`_create_categorical_relationships`. -/
def categoricalCols : List CP :=
  [cps "department", cps "city", cps "category", cps "status", cps "type",
   cps "name", cps "product", cps "country", cps "genre", cps "title"]

/-- What categorical processing produced for one table: the processed column,
the relationship-type name `HAS_<COLUMN>`, the Category-node names created,
and the row→category edges (row primary-key value, category name). -/
structure CatResult where
  colName : CP
  relName : CP
  nodes : List CP
  edges : List (Val × CP)
deriving DecidableEq, Repr

/-- The relationship-type name of categorical edges:
`f"HAS_{self._safe_property(col).upper()}"`. -/
def catRelName (c : CP) : CP := cps "HAS_" ++ pyUpper (safeProperty c)

/-- Categorical processing of one chosen column: take the first 20 distinct
non-null values (`unique_cats[:20]`); for each whose `str` form is non-empty
after `strip`, run
`MATCH (n:label) WHERE n.col = $cat_value MERGE (cat:Category {name}) MERGE
(n)-[:HAS_COL]->(cat)` with `$cat_value = str(value)`: rows match only when
their stored value is text equal to that string, the Category node comes into
being only when at least one row matches, and every matching row gets one
edge. -/
def processCat (t : SrcTable) (c : CP) : CatResult :=
  let vs := colVals t c
  let pkVals := colVals t (tablePk t)
  let uniqueCats := pdUnique (vs.filterMap id)
  let catData : List (CP × List (Val × CP)) := (uniqueCats.take 20).filterMap (fun cat =>
    if pyStrip (pyStr cat) ≠ [] then
      let es := dedupFirst ((pkVals.zip vs).filterMap (fun pv =>
        match pv.1, pv.2 with
        | some p, some v =>
          if v = Val.vtext (pyStr cat) then some (p, pyStr cat) else none
        | _, _ => none))
      if es ≠ [] then some (pyStr cat, es) else none
    else none)
  ⟨c, catRelName c, dedupFirst (catData.map (fun d => d.1)),
    dedupFirst ((catData.map (fun d => d.2)).flatten)⟩

/-- Scan of the priority list: process the first listed name present among the
table's columns, then `break` (later candidates ignored). -/
def catForTableAux (t : SrcTable) : List CP → Option CatResult
  | [] => none
  | c :: rest =>
    if (t.cols.map (fun x => x.name)).contains c then some (processCat t c)
    else catForTableAux t rest

/-- Model of `_create_categorical_relationships` restricted to one table. -/
def catForTable (t : SrcTable) : Option CatResult :=
  catForTableAux t categoricalCols

/-- An accepted reference-edge kind: source table, target table,
relationship-type name. -/
structure FkKind where
  src : CP
  tgt : CP
  relType : CP
deriving DecidableEq, Repr

/-- Entity nodes `_create_base_nodes` merges for one table: one node per
distinct non-null primary-key value, labelled with the sanitized table name. -/
def tableNodes (t : SrcTable) : List (CP × Val) :=
  dedupFirst ((colVals t (tablePk t)).filterMap
    (fun ov => ov.map (fun v => (safeLabel t.name, v))))

/-- All entity nodes after step 3 of `convert_all_tables`. -/
def baseNodes (db : List SrcTable) : List (CP × Val) :=
  dedupFirst ((db.map tableNodes).flatten)

/-- The `(primary key, foreign key)` value pairs of a source table's rows, fed
to `_create_fk_rels`. -/
def tableRowsFk (s : SrcTable) (fkCol : CP) : List (Option Val × Option Val) :=
  (colVals s (tablePk s)).zip (colVals s fkCol)

/-- Inner loop of `_create_all_fk_relationships` for one source table: visit
every target table, skip the source itself (`if source_table == target_table:
continue`), detect a foreign-key column, and materialize its edges. -/
def fkForSource (s : SrcTable) (nodes : List (CP × Val))
    (chkFor : SrcTable → SrcTable → Chk) :
    List SrcTable → Nat × List FkKind × List FkEdge
  | [] => (0, [], [])
  | t :: rest =>
    if s.name = t.name then fkForSource s nodes chkFor rest
    else
      match detectFkToTargetP s.cols (nRows s) t.name (tablePk t) (chkFor s t) with
      | none => fkForSource s nodes chkFor rest
      | some fkCol =>
        let relType := fkRelType fkCol
        let r := createFkRels nodes (safeLabel s.name) (safeLabel t.name)
          relType (tableRowsFk s fkCol)
        let acc := fkForSource s nodes chkFor rest
        (r.2 + acc.1, ⟨s.name, t.name, relType⟩ :: acc.2.1, r.1 ++ acc.2.2)

/-- Outer loop of `_create_all_fk_relationships` over all source tables. -/
def fkAllAux (db : List SrcTable) (nodes : List (CP × Val))
    (chkFor : SrcTable → SrcTable → Chk) :
    List SrcTable → Nat × List FkKind × List FkEdge
  | [] => (0, [], [])
  | s :: rest =>
    let a := fkForSource s nodes chkFor db
    let b := fkAllAux db nodes chkFor rest
    (a.1 + b.1, a.2.1 ++ b.2.1, a.2.2 ++ b.2.2)

/-- Model of `_create_all_fk_relationships`. -/
def fkAll (db : List SrcTable) (nodes : List (CP × Val))
    (chkFor : SrcTable → SrcTable → Chk) : Nat × List FkKind × List FkEdge :=
  fkAllAux db nodes chkFor db

/-- The outcome of a full conversion run. -/
structure ConvResult where
  nodes : List (CP × Val)
  fkTotal : Nat
  fkKinds : List FkKind
  fkEdges : List FkEdge
  cats : List (CP × Option CatResult)
deriving DecidableEq, Repr

/-- The verification-query oracle induced by the database itself: count target
rows whose primary-key value lies in the sample (the non-raising case, e.g.
integer keys). -/
def dbChkFor (_db : List SrcTable) : SrcTable → SrcTable → Chk :=
  fun _ t => pureChk ((colVals t (tablePk t)).filterMap id)

/-- Model of `DynamicKGConverter.convert_all_tables`: ingest, create base
nodes, detect and create all foreign-key relationships, then categorical
relationships. -/
def convertAllTables (db : List SrcTable)
    (chkFor : SrcTable → SrcTable → Chk) : ConvResult :=
  let nodes := baseNodes db
  let r := fkAll db nodes chkFor
  ⟨nodes, r.1, r.2.1, r.2.2, db.map (fun t => (t.name, catForTable t))⟩

/-- The structured per-path result of the dual-path orchestrator
(`row_count`/`result_count` are both modelled by `rowCount`). -/
structure PathResult where
  method : String
  query : String
  data : List (List String)
  rowCount : Nat
  answer : String
  explanation : String
deriving DecidableEq, Repr

/-- The behaviour, for one question, of every external service
`DualPathOrchestrator` consults; each call either returns a value or raises
(`Except.error`). -/
structure Services where
  generateSql : String → Except String String
  runSql : String → Except String (List (List String))
  synthSqlAnswer : List (List String) → Except String (String × String)
  translateCypher : String → Except String String
  runCypher : String → Except String (List (List String))
  synthKgAnswer : List (List String) → Except String (String × String)
  generateFallbackAnswer : String → Except String String
  kgSchemaRaw : Except String String

/-- Model of `_get_kg_schema`: its internal `try/except` returns a default
description on any failure, so it never raises. -/
def getKgSchema (svc : Services) : String :=
  match svc.kgSchemaRaw with
  | .ok s => s
  | .error _ => "Knowledge Graph with multiple connected entities"

/-- The `try` block of `_sql_path`: execute the generated query and
synthesize an answer; any raised exception escapes to the handler. -/
def sqlTryRun (svc : Services) (q : String) :
    Except String (List (List String) × String × String) :=
  match svc.runSql q with
  | .error e => .error e
  | .ok data =>
    match svc.synthSqlAnswer data with
    | .error e => .error e
    | .ok (a, e) => .ok (data, a, e)

/-- The part of `_sql_path` after query generation: the `try/except` with its
fallback branch (the fallback generation itself is unguarded). -/
def sqlPathAfterGen (svc : Services) (q : String) : Except String PathResult :=
  match sqlTryRun svc q with
  | .ok (data, a, e) => .ok ⟨"SQL", q, data, data.length, a, e⟩
  | .error err =>
    match svc.generateFallbackAnswer "SQL" with
    | .error e2 => .error e2
    | .ok fb => .ok ⟨"SQL", q, [], 0, fb,
        "Query failed: " ++ err ++ " - using schema knowledge"⟩

/-- Model of `_sql_path`: query generation happens before the `try` block (a
raised generation call propagates); execution and answer synthesis are inside
it, with a fallback answer on failure. -/
def sqlPath (svc : Services) (sqlSchema : String) : Except String PathResult :=
  match svc.generateSql sqlSchema with
  | .error e => .error e
  | .ok q => sqlPathAfterGen svc q

/-- The `try` block of `_cypher_path`: `" LIMIT 50"` is appended to the
executed query. -/
def cypherTryRun (svc : Services) (q : String) :
    Except String (List (List String) × String × String) :=
  match svc.runCypher (q ++ " LIMIT 50") with
  | .error e => .error e
  | .ok data =>
    match svc.synthKgAnswer data with
    | .error e => .error e
    | .ok (a, e) => .ok (data, a, e)

/-- The part of `_cypher_path` after query translation. -/
def cypherPathAfterGen (svc : Services) (q : String) : Except String PathResult :=
  match cypherTryRun svc q with
  | .ok (data, a, e) => .ok ⟨"Knowledge Graph", q, data, data.length, a, e⟩
  | .error err =>
    match svc.generateFallbackAnswer "Cypher" with
    | .error e2 => .error e2
    | .ok fb => .ok ⟨"Knowledge Graph", q, [], 0, fb,
        "Query failed: " ++ err ++ " - using graph schema knowledge"⟩

/-- Model of `_cypher_path`: same shape as `_sql_path`. -/
def cypherPath (svc : Services) : Except String PathResult :=
  match svc.translateCypher (getKgSchema svc) with
  | .error e => .error e
  | .ok q => cypherPathAfterGen svc q

/-- Model of `DualPathOrchestrator.dual_path_query`: run both paths and pair
the results; an exception in either path propagates to the caller. -/
def dualPathQuery (svc : Services) (sqlSchema : String) :
    Except String (PathResult × PathResult) :=
  match sqlPath svc sqlSchema with
  | .error e => .error e
  | .ok s =>
    match cypherPath svc with
    | .error e => .error e
    | .ok c => .ok (s, c)

/-- Every codepoint of a successfully matched needle occurs in the haystack
(prefix-match case). -/
theorem startsWithSeq_subset :
    ∀ hay needle : CP, startsWithSeq hay needle = true → ∀ x ∈ needle, x ∈ hay
  | _, [], _, x, hx => by cases hx
  | [], _ :: _, h, _, _ => by simp [startsWithSeq] at h
  | a :: as, b :: bs, h, x, hx => by
    simp only [startsWithSeq, Bool.and_eq_true, beq_iff_eq] at h
    rcases List.mem_cons.mp hx with rfl | hxs
    · exact h.1 ▸ List.mem_cons_self a as
    · exact List.mem_cons_of_mem a (startsWithSeq_subset as bs h.2 x hxs)

/-- Every codepoint of a needle found by `containsSeq` occurs in the
haystack. -/
theorem containsSeq_subset :
    ∀ hay needle : CP, containsSeq hay needle = true → ∀ x ∈ needle, x ∈ hay
  | [], needle, h, x, hx => by
    simp only [containsSeq, List.isEmpty_iff] at h
    subst h; cases hx
  | a :: as, needle, h, x, hx => by
    simp only [containsSeq, Bool.or_eq_true] at h
    rcases h with h | h
    · exact startsWithSeq_subset (a :: as) needle h x hx
    · exact List.mem_cons_of_mem a (containsSeq_subset as needle h x hx)

/-- No codepoint of a lower-cased string is an upper-case ASCII letter. -/
theorem pyLower_no_upper (s : CP) : ∀ x ∈ pyLower s, ¬(65 ≤ x ∧ x ≤ 90) := by
  intro x hx
  rcases List.mem_map.mp hx with ⟨y, _, rfl⟩
  unfold lowerCp
  split <;> omega

/-- C10: the `'<T>_ID'` pattern is tested inside the already lower-cased column
name, so it can never match, and the three-pattern candidate test of
`_detect_fk_to_target` coincides with the two-pattern test that checks only
`'<t>_id'` and the lower-cased target primary-key name, for every column name,
target table name and target primary key. -/
theorem c10_upper_ID_pattern_vacuous (colName tname tpk : CP) :
    namePatternMatch colName tname tpk = namePatternMatchTwo colName tname tpk := by
  unfold namePatternMatch namePatternMatchTwo
  have hfalse : containsSeq (pyLower colName) (pyLower tname ++ cps "_ID") = false := by
    by_contra h
    have htrue : containsSeq (pyLower colName) (pyLower tname ++ cps "_ID") = true := by
      revert h; cases containsSeq (pyLower colName) (pyLower tname ++ cps "_ID") <;> simp
    have h73 : (73 : Nat) ∈ pyLower tname ++ cps "_ID" := by
      refine List.mem_append_right _ ?_
      show (73 : Nat) ∈ cps "_ID"
      decide
    exact pyLower_no_upper colName 73
      (containsSeq_subset _ _ htrue 73 h73) (by omega)
  simp only [hfalse, Bool.or_false, Bool.false_or]

/-- The sanitized-identifier property the spec demands of every graph
identifier: only `[A-Za-z0-9_]` characters and length at most 63. -/
def sanitizedOk (s : CP) : Bool := s.all safeChar && decide (s.length ≤ 63)

/-- Output characters of the sanitizer substitution are always safe. -/
theorem safeLabel_all_safe (s : CP) : (safeLabel s).all safeChar = true := by
  rw [List.all_eq_true]
  intro x hx
  have hx2 := List.mem_of_mem_take hx
  rcases List.mem_map.mp hx2 with ⟨y, _, rfl⟩
  by_cases h : safeChar y = true
  · simp [h]
  · simp only [h]
    simp [safeChar]

/-- The sanitizer truncates to at most 63 characters. -/
theorem safeLabel_length_le (s : CP) : (safeLabel s).length ≤ 63 := by
  unfold safeLabel
  rw [List.length_take]
  exact min_le_left _ _

/-- ASCII upper-casing preserves the safe character class. -/
theorem upperCp_safe {n : Nat} (h : safeChar n = true) :
    safeChar (upperCp n) = true := by
  unfold safeChar at h ⊢
  unfold upperCp
  simp only [Bool.or_eq_true, Bool.and_eq_true, decide_eq_true_eq, beq_iff_eq] at h ⊢
  split <;> omega

/-- C9 counterexample: the claim also covers relationship-type names, but
`_create_fk_rels` derives `REFERENCES_<sanitized column>` whose total length
can reach 74 > 63: a 63-character column name already violates the cap, so the
sanitization (with its length bound) is not applied to every relationship-type
name used in a graph operation. -/
theorem c9_relType_exceeds_cap :
    sanitizedOk (fkRelType (List.replicate 63 97)) = false ∧
    (fkRelType (List.replicate 63 97)).length = 74 := by
  constructor <;> decide

/-- C9 as amended: the sanitization functions themselves return only
`[A-Za-z0-9_]` strings of length at most 63, and they are applied to every
table label and property key; relationship-type names are built by prefixing
`REFERENCES_` (resp. `HAS_`) to a sanitized, upper-cased column name, so they
also contain only `[A-Za-z0-9_]` characters but are only bounded by 74
(resp. 67) characters, not 63. -/
theorem c9_amended_sanitization :
    (∀ s : CP, sanitizedOk (safeLabel s) = true) ∧
    (∀ s : CP, sanitizedOk (safeProperty s) = true) ∧
    (∀ c : CP, (fkRelType c).all safeChar = true ∧ (fkRelType c).length ≤ 74) ∧
    (∀ c : CP, (catRelName c).all safeChar = true ∧ (catRelName c).length ≤ 67) := by
  have hsafe : ∀ s : CP, sanitizedOk (safeLabel s) = true := by
    intro s
    unfold sanitizedOk
    rw [Bool.and_eq_true]
    exact ⟨safeLabel_all_safe s, by simpa using safeLabel_length_le s⟩
  have hupper : ∀ s : CP, (s.all safeChar = true) → (pyUpper s).all safeChar = true := by
    intro s hall
    rw [List.all_eq_true] at hall ⊢
    intro x hx
    rcases List.mem_map.mp hx with ⟨y, hy, rfl⟩
    exact upperCp_safe (hall y hy)
  refine ⟨hsafe, hsafe, ?_, ?_⟩
  · intro c
    constructor
    · unfold fkRelType
      rw [List.all_append, Bool.and_eq_true]
      exact ⟨by decide, safeLabel_all_safe (pyUpper c)⟩
    · unfold fkRelType
      rw [List.length_append]
      have h1 : (cps "REFERENCES_").length = 11 := by decide
      have h2 := safeLabel_length_le (pyUpper c)
      omega
  · intro c
    constructor
    · unfold catRelName
      rw [List.all_append, Bool.and_eq_true]
      refine ⟨by decide, hupper _ (safeLabel_all_safe c)⟩
    · unfold catRelName
      rw [List.length_append]
      have h1 : (cps "HAS_").length = 4 := by decide
      have h2 : (pyUpper (safeProperty c)).length ≤ 63 := by
        unfold pyUpper
        rw [List.length_map]
        exact safeLabel_length_le c
      omega

/-- Elements produced by `dedupFirstAux` avoid the `seen` accumulator and are
mutually distinct. -/
theorem dedupFirstAux_nodup [DecidableEq α] :
    ∀ (l seen : List α),
      (∀ a ∈ dedupFirstAux l seen, a ∉ seen) ∧ (dedupFirstAux l seen).Nodup
  | [], seen => by simp [dedupFirstAux]
  | v :: rest, seen => by
    unfold dedupFirstAux
    by_cases hv : v ∈ seen
    · simpa [hv] using dedupFirstAux_nodup rest seen
    · simp only [hv, if_false]
      have ih := dedupFirstAux_nodup rest (v :: seen)
      constructor
      · intro a ha
        rcases List.mem_cons.mp ha with rfl | ha2
        · exact hv
        · intro hseen
          exact ih.1 a ha2 (List.mem_cons_of_mem v hseen)
      · rw [List.nodup_cons]
        refine ⟨fun hmem => ih.1 v hmem (List.mem_cons_self v seen), ih.2⟩

/-- Membership survives first-occurrence deduplication. -/
theorem mem_dedupFirstAux [DecidableEq α] :
    ∀ (l seen : List α) (x : α),
      x ∈ dedupFirstAux l seen ↔ x ∈ l ∧ x ∉ seen
  | [], seen, x => by simp [dedupFirstAux]
  | v :: rest, seen, x => by
    unfold dedupFirstAux
    by_cases hv : v ∈ seen
    · rw [if_pos hv, mem_dedupFirstAux rest seen x]
      constructor
      · exact fun h => ⟨List.mem_cons_of_mem v h.1, h.2⟩
      · rintro ⟨h1, h2⟩
        rcases List.mem_cons.mp h1 with rfl | h1
        · exact absurd hv h2
        · exact ⟨h1, h2⟩
    · rw [if_neg hv]
      constructor
      · intro h
        rcases List.mem_cons.mp h with rfl | h
        · exact ⟨List.mem_cons_self x rest, hv⟩
        · have := (mem_dedupFirstAux rest (v :: seen) x).mp h
          exact ⟨List.mem_cons_of_mem v this.1,
            fun hx => this.2 (List.mem_cons_of_mem v hx)⟩
      · rintro ⟨h1, h2⟩
        rcases List.mem_cons.mp h1 with rfl | h1
        · exact List.mem_cons_self x _
        · by_cases hxv : x = v
          · subst hxv; exact List.mem_cons_self x _
          · refine List.mem_cons_of_mem v ?_
            exact (mem_dedupFirstAux rest (v :: seen) x).mpr
              ⟨h1, by simp [hxv, h2]⟩

/-- Membership in a deduplicated list is membership in the original. -/
theorem mem_dedupFirst [DecidableEq α] (l : List α) (x : α) :
    x ∈ dedupFirst l ↔ x ∈ l := by
  unfold dedupFirst
  rw [mem_dedupFirstAux]
  simp

/-- `dedupFirst` returns a duplicate-free list. -/
theorem dedupFirst_nodup [DecidableEq α] (l : List α) : (dedupFirst l).Nodup :=
  (dedupFirstAux_nodup l []).2

/-- `pdUnique` returns a duplicate-free list. -/
theorem pdUnique_nodup (l : List Val) : (pdUnique l).Nodup :=
  dedupFirst_nodup l

/-- The sample drawn by the detection rules is duplicate-free. -/
theorem dropnaUnique_take_nodup (vals : List (Option Val)) (n : Nat) :
    ((dropnaUnique vals).take n).Nodup :=
  (pdUnique_nodup (vals.filterMap id)).sublist (List.take_sublist n _)

/-- Counting `a`-elements lying in `b` equals counting `b`-elements lying in
`a`, for duplicate-free lists: both count the intersection. -/
theorem filter_mem_length_comm (a b : List Val)
    (ha : a.Nodup) (hb : b.Nodup) :
    (a.filter (fun v => b.contains v)).length =
    (b.filter (fun v => a.contains v)).length := by
  have key : ∀ (x y : List Val), x.Nodup →
      (x.filter (fun v => y.contains v)).length =
      (x.toFinset ∩ y.toFinset).card := by
    intro x y hx
    have hnd : (x.filter (fun v => y.contains v)).Nodup := hx.filter _
    rw [← List.toFinset_card_of_nodup hnd, List.toFinset_filter]
    congr 1
    ext z
    simp [List.mem_filter, List.contains_iff_exists_mem_beq, beq_iff_eq]
  rw [key a b ha, key b a hb, Finset.inter_comm]

/-- A `try/except` wrapper never lets an exception through. -/
theorem exceptCatch_isOk (m : Except Unit (Option CP)) :
    ∃ o, exceptCatch m = .ok o := by
  cases m with
  | error e => exact ⟨none, rfl⟩
  | ok a => exact ⟨a, rfl⟩

/-- The name-pattern loop never raises, whatever the verification queries do. -/
theorem detectPrimary_isOk :
    ∀ (cols : List SrcColumn) (tname tpk : CP) (chk : Chk),
      ∃ o, detectPrimary cols tname tpk chk = .ok o
  | [], _, _, _ => ⟨none, rfl⟩
  | c :: rest, tname, tpk, chk => by
    unfold detectPrimary
    by_cases h1 : namePatternMatch c.name tname tpk
    · rw [if_pos h1]
      by_cases h2 : (dropnaUnique c.vals).length = 0
      · rw [if_pos h2]
        exact detectPrimary_isOk rest tname tpk chk
      · rw [if_neg h2]
        obtain ⟨o, ho⟩ :=
          exceptCatch_isOk (primaryTryBody c.name ((dropnaUnique c.vals).take 10) chk)
        simp only [ho]
        cases o with
        | some n => exact ⟨some n, rfl⟩
        | none => exact detectPrimary_isOk rest tname tpk chk
    · rw [if_neg h1]
      exact detectPrimary_isOk rest tname tpk chk

/-- The fallback cardinality loop never raises either. -/
theorem detectFallback_isOk :
    ∀ (cols : List SrcColumn) (totalRows : Nat) (chk : Chk),
      ∃ o, detectFallback cols totalRows chk = .ok o
  | [], _, _ => ⟨none, rfl⟩
  | c :: rest, totalRows, chk => by
    unfold detectFallback
    by_cases h1 : 10 * nunique c.vals < totalRows ∧ nunique c.vals > 1
    · rw [if_pos h1]
      by_cases h2 : ((dropnaUnique c.vals).take 5).length > 0
      · rw [if_pos h2]
        obtain ⟨o, ho⟩ :=
          exceptCatch_isOk (fallbackTryBody c.name ((dropnaUnique c.vals).take 5) chk)
        simp only [ho]
        cases o with
        | some n => exact ⟨some n, rfl⟩
        | none => exact detectFallback_isOk rest totalRows chk
      · rw [if_neg h2]
        exact detectFallback_isOk rest totalRows chk
    · rw [if_neg h1]
      exact detectFallback_isOk rest totalRows chk

/-- `_detect_fk_to_target` always returns normally, with the value
`detectFkToTargetP` computes. -/
theorem detectFkToTarget_ok (cols : List SrcColumn) (totalRows : Nat)
    (tname tpk : CP) (chk : Chk) :
    detectFkToTarget cols totalRows tname tpk chk =
      .ok (detectFkToTargetP cols totalRows tname tpk chk) := by
  obtain ⟨o, ho⟩ := detectPrimary_isOk cols tname tpk chk
  cases o with
  | some c =>
    unfold detectFkToTargetP detectFkToTarget
    rw [ho]
    rfl
  | none =>
    obtain ⟨o2, ho2⟩ := detectFallback_isOk cols totalRows chk
    unfold detectFkToTargetP detectFkToTarget
    rw [ho, ho2]
    rfl

/-- A raised verification query on a name-matched candidate is caught and the
scan moves on to the remaining columns. -/
theorem detectPrimary_error_continue (c : SrcColumn) (rest : List SrcColumn)
    (tname tpk : CP) (chk : Chk)
    (h1 : namePatternMatch c.name tname tpk = true)
    (h2 : (dropnaUnique c.vals).length ≠ 0)
    (h3 : chk ((dropnaUnique c.vals).take 10) = .error ()) :
    detectPrimary (c :: rest) tname tpk chk = detectPrimary rest tname tpk chk := by
  have hb : primaryTryBody c.name ((dropnaUnique c.vals).take 10) chk =
      Except.error () := by
    unfold primaryTryBody
    rw [h3]
    rfl
  have hcatch : exceptCatch
      (primaryTryBody c.name ((dropnaUnique c.vals).take 10) chk) = .ok none := by
    rw [hb]
    rfl
  unfold detectPrimary
  rw [if_pos h1, if_neg h2]
  simp only [hcatch]
  cases rest <;> rfl

/-- A raised verification query in the fallback loop is likewise caught and
the scan moves on. -/
theorem detectFallback_error_continue (c : SrcColumn) (rest : List SrcColumn)
    (totalRows : Nat) (chk : Chk)
    (h1 : 10 * nunique c.vals < totalRows ∧ nunique c.vals > 1)
    (h2 : ((dropnaUnique c.vals).take 5).length > 0)
    (h3 : chk ((dropnaUnique c.vals).take 5) = .error ()) :
    detectFallback (c :: rest) totalRows chk = detectFallback rest totalRows chk := by
  have hb : fallbackTryBody c.name ((dropnaUnique c.vals).take 5) chk =
      Except.error () := by
    unfold fallbackTryBody
    rw [h3]
    rfl
  have hcatch : exceptCatch
      (fallbackTryBody c.name ((dropnaUnique c.vals).take 5) chk) = .ok none := by
    rw [hb]
    rfl
  unfold detectFallback
  rw [if_pos h1, if_pos h2]
  simp only [hcatch]
  cases rest <;> rfl

/-- A verification-query behaviour that always raises (a thoroughly malformed
candidate column). -/
def alwaysRaise : Chk := fun _ => .error ()

/-- Replace the verification queries of one source table (by name) with
always-raising ones, leaving every other pair untouched. -/
def poisonSrc (s0 : CP) (chkFor : SrcTable → SrcTable → Chk) :
    SrcTable → SrcTable → Chk :=
  fun a b => if a.name = s0 then alwaysRaise else chkFor a b

/-- Under an always-raising oracle the name-pattern loop finds nothing. -/
theorem detectPrimary_alwaysRaise :
    ∀ (cols : List SrcColumn) (tname tpk : CP),
      detectPrimary cols tname tpk alwaysRaise = .ok none
  | [], _, _ => rfl
  | c :: rest, tname, tpk => by
    unfold detectPrimary
    by_cases h1 : namePatternMatch c.name tname tpk
    · rw [if_pos h1]
      by_cases h2 : (dropnaUnique c.vals).length = 0
      · rw [if_pos h2]
        exact detectPrimary_alwaysRaise rest tname tpk
      · rw [if_neg h2]
        have : exceptCatch (primaryTryBody c.name
            ((dropnaUnique c.vals).take 10) alwaysRaise) = .ok none := rfl
        simp only [this]
        exact detectPrimary_alwaysRaise rest tname tpk
    · rw [if_neg h1]
      exact detectPrimary_alwaysRaise rest tname tpk

/-- Under an always-raising oracle the fallback loop finds nothing. -/
theorem detectFallback_alwaysRaise :
    ∀ (cols : List SrcColumn) (totalRows : Nat),
      detectFallback cols totalRows alwaysRaise = .ok none
  | [], _ => rfl
  | c :: rest, totalRows => by
    unfold detectFallback
    by_cases h1 : 10 * nunique c.vals < totalRows ∧ nunique c.vals > 1
    · rw [if_pos h1]
      by_cases h2 : ((dropnaUnique c.vals).take 5).length > 0
      · rw [if_pos h2]
        have : exceptCatch (fallbackTryBody c.name
            ((dropnaUnique c.vals).take 5) alwaysRaise) = .ok none := rfl
        simp only [this]
        exact detectFallback_alwaysRaise rest totalRows
      · rw [if_neg h2]
        exact detectFallback_alwaysRaise rest totalRows
    · rw [if_neg h1]
      exact detectFallback_alwaysRaise rest totalRows

/-- Under an always-raising oracle no relationship is inferred for the pair. -/
theorem detectFkToTargetP_alwaysRaise (cols : List SrcColumn) (totalRows : Nat)
    (tname tpk : CP) :
    detectFkToTargetP cols totalRows tname tpk alwaysRaise = none := by
  unfold detectFkToTargetP detectFkToTarget
  rw [detectPrimary_alwaysRaise cols tname tpk,
    detectFallback_alwaysRaise cols totalRows]
  rfl

/-- The per-source loop depends on the oracle only through this source's
pairs. -/
theorem fkForSource_congr (s : SrcTable) (nodes : List (CP × Val))
    (chkFor chkFor2 : SrcTable → SrcTable → Chk)
    (h : ∀ t, chkFor s t = chkFor2 s t) :
    ∀ ts, fkForSource s nodes chkFor ts = fkForSource s nodes chkFor2 ts
  | [] => rfl
  | t :: rest => by
    unfold fkForSource
    rw [fkForSource_congr s nodes chkFor chkFor2 h rest, h t]

/-- A poisoned source table contributes nothing: detection treats each of its
pairs as non-matching. -/
theorem fkForSource_poisoned (s : SrcTable) (nodes : List (CP × Val))
    (chkFor : SrcTable → SrcTable → Chk) (s0 : CP) (hs : s.name = s0) :
    ∀ ts, fkForSource s nodes (poisonSrc s0 chkFor) ts = (0, [], [])
  | [] => rfl
  | t :: rest => by
    unfold fkForSource
    rw [fkForSource_poisoned s nodes chkFor s0 hs rest]
    by_cases he : s.name = t.name
    · rw [if_pos he]
    · rw [if_neg he]
      have hp : poisonSrc s0 chkFor s t = alwaysRaise := by
        unfold poisonSrc
        rw [if_pos hs]
      rw [hp, detectFkToTargetP_alwaysRaise]

/-- Boolean `contains` agrees with list membership. -/
theorem contains_true_iff (l : List Val) (v : Val) :
    l.contains v = true ↔ v ∈ l := by
  simp [List.contains_iff_exists_mem_beq, beq_iff_eq]

/-- C4: a name-matched candidate column is accepted by the name-pattern rule
exactly when the sample of up to 10 distinct non-null values is non-empty and
the fraction of sampled values found in the target's key domain strictly
exceeds 0.3 (`10 * found > 3 * sampled`, so the acceptance is strict: 3 of 10
is rejected, 4 of 10 accepted).  `targetKeys` is the target's primary-key
column, duplicate-free as a key column is. -/
theorem c4_value_overlap_threshold (c : SrcColumn) (tname tpk : CP)
    (targetKeys : List Val) (hnd : targetKeys.Nodup)
    (hmatch : namePatternMatch c.name tname tpk = true) :
    detectPrimary [c] tname tpk (pureChk targetKeys) = .ok (some c.name) ↔
      ((dropnaUnique c.vals).take 10 ≠ [] ∧
        10 * (((dropnaUnique c.vals).take 10).filter
            (fun v => targetKeys.contains v)).length >
          3 * ((dropnaUnique c.vals).take 10).length) := by
  have hswap :
      (targetKeys.filter
        (fun v => ((dropnaUnique c.vals).take 10).contains v)).length =
      (((dropnaUnique c.vals).take 10).filter
        (fun v => targetKeys.contains v)).length := by
    rw [filter_mem_length_comm targetKeys ((dropnaUnique c.vals).take 10) hnd
      (dropnaUnique_take_nodup c.vals 10)]
  unfold detectPrimary
  rw [if_pos hmatch]
  by_cases h0 : (dropnaUnique c.vals).length = 0
  · rw [if_pos h0]
    have hnil : dropnaUnique c.vals = [] := List.length_eq_zero.mp h0
    rw [hnil]
    simp [detectPrimary]
  · rw [if_neg h0]
    have hcatch : exceptCatch (primaryTryBody c.name
        ((dropnaUnique c.vals).take 10) (pureChk targetKeys)) =
      .ok (if 10 * (targetKeys.filter
            (fun v => ((dropnaUnique c.vals).take 10).contains v)).length >
          3 * ((dropnaUnique c.vals).take 10).length
        then some c.name else none) := rfl
    simp only [hcatch]
    have hne : (dropnaUnique c.vals).take 10 ≠ [] := by
      intro hcon
      rcases List.take_eq_nil_iff.mp hcon with h | h
      · exact absurd h (by omega)
      · exact h0 (by rw [h]; rfl)
    by_cases hcond : 10 * (targetKeys.filter
          (fun v => ((dropnaUnique c.vals).take 10).contains v)).length >
        3 * ((dropnaUnique c.vals).take 10).length
    · rw [if_pos hcond]
      rw [hswap] at hcond
      exact iff_of_true rfl ⟨hne, hcond⟩
    · rw [if_neg hcond]
      rw [hswap] at hcond
      refine iff_of_false ?_ ?_
      · intro hcon
        exact Option.noConfusion (Except.ok.inj hcon)
      · rintro ⟨-, hgt⟩
        exact hcond hgt

/-- Witness for C4 at a concrete boundary-adjacent input: the column
`dept_id` with sampled values `{1, 3, 4}` against key domain `{1, 2}` has
match fraction 1/3 > 0.3, so the iff instantiates with both sides true. -/
theorem c4_value_overlap_threshold_witness :
    [Val.vint 1, Val.vint 2].Nodup ∧
    namePatternMatch (cps "dept_id") (cps "dept") (cps "id") = true ∧
    (detectPrimary [⟨cps "dept_id", 0,
        [some (Val.vint 1), some (Val.vint 3), some (Val.vint 4)]⟩]
      (cps "dept") (cps "id") (pureChk [Val.vint 1, Val.vint 2]) =
        .ok (some (cps "dept_id")) ↔
      ((dropnaUnique [some (Val.vint 1), some (Val.vint 3), some (Val.vint 4)]).take 10 ≠ [] ∧
        10 * (((dropnaUnique [some (Val.vint 1), some (Val.vint 3),
              some (Val.vint 4)]).take 10).filter
            (fun v => [Val.vint 1, Val.vint 2].contains v)).length >
          3 * ((dropnaUnique [some (Val.vint 1), some (Val.vint 3),
            some (Val.vint 4)]).take 10).length)) :=
  ⟨by decide, by decide,
    c4_value_overlap_threshold
      ⟨cps "dept_id", 0, [some (Val.vint 1), some (Val.vint 3), some (Val.vint 4)]⟩
      (cps "dept") (cps "id") [Val.vint 1, Val.vint 2] (by decide) (by decide)⟩

/-- A 61-row column with distinct values `1..6` (then 55 repeats of `1`):
unique-value count 6 is just below 10% of the row count. -/
def c5vals : List (Option Val) :=
  (List.range 6).map (fun i => some (Val.vint (Int.ofNat i + 1))) ++
    List.replicate 55 (some (Val.vint 1))

/-- C5 counterexample: the fallback rule samples only the first **5** distinct
non-null values (`unique()[:5]`), not 10 as the claim states.  Here the column
satisfies the cardinality conditions and its 10-value sample overlaps the
target key domain `{6}`, yet no column is accepted because the 5-value sample
misses the single matching value. -/
theorem c5_sample_size_counterexample :
    detectFkToTargetP [⟨cps "payload", 0, c5vals⟩] 61 (cps "t") (cps "tid")
        (pureChk [Val.vint 6]) = none ∧
    10 * nunique c5vals < 61 ∧ 1 < nunique c5vals ∧
    0 < ([Val.vint 6].filter
      (fun v => ((dropnaUnique c5vals).take 10).contains v)).length := by
  refine ⟨by decide, by decide, by decide, by decide⟩

/-- C5 as amended: the fallback cardinality rule runs when the name-pattern
rule found nothing, and (for a single-column source) accepts the column
exactly when its distinct-value count is below 10% of the row count and above
1 and at least one of the first **5** (not 10) sampled distinct non-null
values occurs in the target's key domain. -/
theorem c5_fallback_cardinality_rule :
    (∀ (cols : List SrcColumn) (totalRows : Nat) (tname tpk : CP) (chk : Chk),
        detectPrimary cols tname tpk chk = .ok none →
        detectFkToTarget cols totalRows tname tpk chk =
          detectFallback cols totalRows chk) ∧
    (∀ (c : SrcColumn) (totalRows : Nat) (targetKeys : List Val),
        detectFallback [c] totalRows (pureChk targetKeys) = .ok (some c.name) ↔
          (10 * nunique c.vals < totalRows ∧ 1 < nunique c.vals ∧
            ∃ v ∈ (dropnaUnique c.vals).take 5, v ∈ targetKeys)) := by
  constructor
  · intro cols totalRows tname tpk chk h
    unfold detectFkToTarget
    rw [h]
    rfl
  · intro c totalRows targetKeys
    unfold detectFallback
    by_cases hc : 10 * nunique c.vals < totalRows ∧ nunique c.vals > 1
    · rw [if_pos hc]
      have hlen2 : (dropnaUnique c.vals).length > 1 := hc.2
      have hlen : ((dropnaUnique c.vals).take 5).length > 0 := by
        rw [List.length_take]
        exact lt_min (by norm_num) (by omega)
      rw [if_pos hlen]
      have hcatch : exceptCatch (fallbackTryBody c.name
          ((dropnaUnique c.vals).take 5) (pureChk targetKeys)) =
        .ok (if (targetKeys.filter
            (fun v => ((dropnaUnique c.vals).take 5).contains v)).length > 0
          then some c.name else none) := rfl
      simp only [hcatch]
      by_cases hm : (targetKeys.filter
          (fun v => ((dropnaUnique c.vals).take 5).contains v)).length > 0
      · rw [if_pos hm]
        refine iff_of_true rfl ⟨hc.1, hc.2, ?_⟩
        obtain ⟨v, hv⟩ := List.exists_mem_of_length_pos hm
        rw [List.mem_filter] at hv
        exact ⟨v, (contains_true_iff _ _).mp hv.2, hv.1⟩
      · rw [if_neg hm]
        refine iff_of_false ?_ ?_
        · intro hcon
          exact Option.noConfusion (Except.ok.inj hcon)
        · rintro ⟨-, -, v, hv1, hv2⟩
          apply hm
          have hvmem : v ∈ targetKeys.filter
              (fun v => ((dropnaUnique c.vals).take 5).contains v) := by
            rw [List.mem_filter]
            exact ⟨hv2, (contains_true_iff _ _).mpr hv1⟩
          exact List.length_pos_of_mem hvmem
    · rw [if_neg hc]
      refine iff_of_false ?_ ?_
      · intro hcon
        exact Option.noConfusion (Except.ok.inj hcon)
      · rintro ⟨h1, h2, -⟩
        exact hc ⟨h1, h2⟩

/-- Witness for C5's amended rule: on the 61-row column the name-pattern rule
finds nothing, so `_detect_fk_to_target` reduces to the fallback scan. -/
theorem c5_fallback_cardinality_rule_witness :
    detectPrimary [⟨cps "payload", 0, c5vals⟩] (cps "t") (cps "tid")
        (pureChk [Val.vint 6]) = .ok none ∧
    detectFkToTarget [⟨cps "payload", 0, c5vals⟩] 61 (cps "t") (cps "tid")
        (pureChk [Val.vint 6]) =
      detectFallback [⟨cps "payload", 0, c5vals⟩] 61 (pureChk [Val.vint 6]) :=
  ⟨by decide,
    c5_fallback_cardinality_rule.1 [⟨cps "payload", 0, c5vals⟩] 61
      (cps "t") (cps "tid") (pureChk [Val.vint 6]) (by decide)⟩

/-- Poisoning one source table's verification queries leaves every other
source's inference unchanged: the run equals the clean run on the remaining
sources. -/
theorem fkAllAux_poison (db : List SrcTable) (nodes : List (CP × Val))
    (chkFor : SrcTable → SrcTable → Chk) (s0 : CP) :
    ∀ srcs, fkAllAux db nodes (poisonSrc s0 chkFor) srcs =
      fkAllAux db nodes chkFor (srcs.filter (fun s => decide ¬(s.name = s0)))
  | [] => rfl
  | s :: rest => by
    by_cases hs : s.name = s0
    · have hfil : (s :: rest).filter (fun x => decide ¬(x.name = s0)) =
          rest.filter (fun x => decide ¬(x.name = s0)) := by
        rw [List.filter_cons]
        simp [hs]
      rw [hfil, ← fkAllAux_poison db nodes chkFor s0 rest]
      show (let a := fkForSource s nodes (poisonSrc s0 chkFor) db
            let b := fkAllAux db nodes (poisonSrc s0 chkFor) rest
            (a.1 + b.1, a.2.1 ++ b.2.1, a.2.2 ++ b.2.2)) =
        fkAllAux db nodes (poisonSrc s0 chkFor) rest
      rw [fkForSource_poisoned s nodes chkFor s0 hs db]
      simp
    · have hfil : (s :: rest).filter (fun x => decide ¬(x.name = s0)) =
          s :: rest.filter (fun x => decide ¬(x.name = s0)) := by
        rw [List.filter_cons]
        simp [hs]
      rw [hfil]
      show (let a := fkForSource s nodes (poisonSrc s0 chkFor) db
            let b := fkAllAux db nodes (poisonSrc s0 chkFor) rest
            (a.1 + b.1, a.2.1 ++ b.2.1, a.2.2 ++ b.2.2)) =
        (let a := fkForSource s nodes chkFor db
         let b := fkAllAux db nodes chkFor
           (rest.filter (fun x => decide ¬(x.name = s0)))
         (a.1 + b.1, a.2.1 ++ b.2.1, a.2.2 ++ b.2.2))
      rw [fkAllAux_poison db nodes chkFor s0 rest,
        fkForSource_congr s nodes (poisonSrc s0 chkFor) chkFor
          (fun t => by unfold poisonSrc; rw [if_neg hs]) db]

/-- C7: a failed value-verification query is caught locally.  First: for any
oracle behaviour `_detect_fk_to_target` returns normally (never raises).
Second: a name-matched candidate whose query raises is treated as
non-matching and the scan continues with the remaining columns.  Third:
making every verification query of one source table raise (a malformed value
in its candidate columns) leaves the inference of all other `(S, T)` pairs
exactly as in a run without that source, so one bad pair never aborts the
others. -/
theorem c7_verification_failure_isolated :
    (∀ (cols : List SrcColumn) (totalRows : Nat) (tname tpk : CP) (chk : Chk),
        detectFkToTarget cols totalRows tname tpk chk =
          .ok (detectFkToTargetP cols totalRows tname tpk chk)) ∧
    (∀ (c : SrcColumn) (rest : List SrcColumn) (tname tpk : CP) (chk : Chk),
        namePatternMatch c.name tname tpk = true →
        (dropnaUnique c.vals).length ≠ 0 →
        chk ((dropnaUnique c.vals).take 10) = .error () →
        detectPrimary (c :: rest) tname tpk chk =
          detectPrimary rest tname tpk chk) ∧
    (∀ (db : List SrcTable) (nodes : List (CP × Val))
        (chkFor : SrcTable → SrcTable → Chk) (s0 : CP) (srcs : List SrcTable),
        fkAllAux db nodes (poisonSrc s0 chkFor) srcs =
          fkAllAux db nodes chkFor (srcs.filter (fun s => decide ¬(s.name = s0)))) :=
  ⟨detectFkToTarget_ok, detectPrimary_error_continue, fkAllAux_poison⟩

/-- Witness for C7: a concrete name-matched candidate whose verification
query raises is skipped and the scan continues. -/
theorem c7_verification_failure_isolated_witness :
    namePatternMatch (cps "dept_id") (cps "dept") (cps "id") = true ∧
    (dropnaUnique [some (Val.vint 1)]).length ≠ 0 ∧
    alwaysRaise ((dropnaUnique [some (Val.vint 1)]).take 10) = .error () ∧
    detectPrimary [⟨cps "dept_id", 0, [some (Val.vint 1)]⟩]
        (cps "dept") (cps "id") alwaysRaise =
      detectPrimary [] (cps "dept") (cps "id") alwaysRaise :=
  ⟨by decide, by decide, rfl,
    c7_verification_failure_isolated.2.1 ⟨cps "dept_id", 0, [some (Val.vint 1)]⟩
      [] (cps "dept") (cps "id") alwaysRaise (by decide) (by decide) rfl⟩

/-- The returned count grows by one for every row whose foreign-key value is
non-null, whether or not an edge was created. -/
theorem foldl_fkRelStep_count (nodes : List (CP × Val)) (sl tl rt : CP) :
    ∀ (l : List (Option Val × Option Val)) (acc : List FkEdge × Nat),
      (l.foldl (fkRelStep nodes sl tl rt) acc).2 =
        acc.2 + (l.filter (fun r => r.2.isSome)).length
  | [], acc => by simp
  | (r1, r2) :: rest, acc => by
    rw [List.foldl_cons, foldl_fkRelStep_count nodes sl tl rt rest _,
      List.filter_cons]
    cases r2 with
    | none => simp [fkRelStep]
    | some tv =>
      simp [fkRelStep]
      omega

/-- One edge-creation step adds (at most) the edge of this row, and only when
both endpoint nodes exist. -/
theorem fkRelStep_mem (nodes : List (CP × Val)) (sl tl rt : CP)
    (acc : List FkEdge × Nat) (r1 r2 : Option Val) (e : FkEdge) :
    e ∈ (fkRelStep nodes sl tl rt acc (r1, r2)).1 ↔
      e ∈ acc.1 ∨ (∃ sv tv, r1 = some sv ∧ r2 = some tv ∧
        (sl, sv) ∈ nodes ∧ (tl, tv) ∈ nodes ∧ e = ⟨sl, sv, rt, tl, tv⟩) := by
  cases r2 with
  | none => simp [fkRelStep]
  | some tv =>
    cases r1 with
    | none => simp [fkRelStep]
    | some sv =>
      unfold fkRelStep
      simp only
      by_cases hn : (sl, sv) ∈ nodes ∧ (tl, tv) ∈ nodes
      · rw [if_pos hn]
        by_cases hdup : (⟨sl, sv, rt, tl, tv⟩ : FkEdge) ∈ acc.1
        · rw [if_pos hdup]
          constructor
          · intro h
            exact Or.inl h
          · rintro (h | ⟨sv2, tv2, hs, ht, -, -, rfl⟩)
            · exact h
            · cases Option.some.inj hs
              cases Option.some.inj ht
              exact hdup
        · rw [if_neg hdup]
          rw [List.mem_append, List.mem_singleton]
          constructor
          · rintro (h | rfl)
            · exact Or.inl h
            · exact Or.inr ⟨sv, tv, rfl, rfl, hn.1, hn.2, rfl⟩
          · rintro (h | ⟨sv2, tv2, hs, ht, -, -, rfl⟩)
            · exact Or.inl h
            · cases Option.some.inj hs
              cases Option.some.inj ht
              exact Or.inr rfl
      · rw [if_neg hn]
        constructor
        · intro h
          exact Or.inl h
        · rintro (h | ⟨sv2, tv2, hs, ht, h1, h2, rfl⟩)
          · exact h
          · cases Option.some.inj hs
            cases Option.some.inj ht
            exact absurd ⟨h1, h2⟩ hn

/-- Folding the per-row step creates exactly the edges of rows whose two
endpoint nodes exist. -/
theorem foldl_fkRelStep_mem (nodes : List (CP × Val)) (sl tl rt : CP) :
    ∀ (l : List (Option Val × Option Val)) (acc : List FkEdge × Nat) (e : FkEdge),
      e ∈ (l.foldl (fkRelStep nodes sl tl rt) acc).1 ↔
        e ∈ acc.1 ∨ (e.srcLabel = sl ∧ e.tgtLabel = tl ∧ e.relType = rt ∧
          (sl, e.srcId) ∈ nodes ∧ (tl, e.tgtId) ∈ nodes ∧
          (some e.srcId, some e.tgtId) ∈ l)
  | [], acc, e => by simp
  | (r1, r2) :: rest, acc, e => by
    rw [List.foldl_cons, foldl_fkRelStep_mem nodes sl tl rt rest _ e,
      fkRelStep_mem nodes sl tl rt acc r1 r2 e, or_assoc]
    constructor
    · rintro (h | h | ⟨h1, h2, h3, h4, h5, h6⟩)
      · exact Or.inl h
      · rcases h with ⟨sv, tv, rfl, rfl, hn1, hn2, rfl⟩
        exact Or.inr ⟨rfl, rfl, rfl, hn1, hn2, List.mem_cons_self _ _⟩
      · exact Or.inr ⟨h1, h2, h3, h4, h5, List.mem_cons_of_mem _ h6⟩
    · rintro (h | ⟨h1, h2, h3, h4, h5, h6⟩)
      · exact Or.inl h
      · rcases List.mem_cons.mp h6 with heq | h6
        · cases heq
          refine Or.inr (Or.inl ⟨e.srcId, e.tgtId, rfl, rfl, h4, h5, ?_⟩)
          cases e
          simp only at h1 h2 h3
          subst h1; subst h2; subst h3
          rfl
        · exact Or.inr (Or.inr ⟨h1, h2, h3, h4, h5, h6⟩)

/-- C2 counterexample: a row whose foreign-key value has no target node is
silently skipped (no edge, no error) — but `created_count` IS incremented,
because the `MATCH/MATCH/MERGE` query succeeds with zero rows instead of
raising.  Here the single row references target id 99, which has no node. -/
theorem c2_count_incremented_counterexample :
    (createFkRels [(cps "emp", Val.vint 1)] (cps "emp") (cps "dept")
        (cps "REFERENCES_DEPT_ID")
        [(some (Val.vint 1), some (Val.vint 99))]).1 = [] ∧
    ¬((createFkRels [(cps "emp", Val.vint 1)] (cps "emp") (cps "dept")
        (cps "REFERENCES_DEPT_ID")
        [(some (Val.vint 1), some (Val.vint 99))]).2 = 0) := by
  refine ⟨by decide, by decide⟩

/-- C2 as amended: for a row with a non-null foreign-key value whose target
node is missing, edge creation is silently skipped (no edge materialized, no
error, the run continues) — but the returned count IS incremented for that
row: the count equals the number of non-null rows, while the edges are
exactly those of rows with both endpoint nodes present. -/
theorem c2_missing_target_skipped_but_counted
    (nodes : List (CP × Val)) (sl tl rt : CP)
    (rows : List (Option Val × Option Val)) :
    (createFkRels nodes sl tl rt rows).2 =
      (rows.filter (fun r => r.2.isSome)).length ∧
    (∀ e : FkEdge, e ∈ (createFkRels nodes sl tl rt rows).1 ↔
      (e.srcLabel = sl ∧ e.tgtLabel = tl ∧ e.relType = rt ∧
        (sl, e.srcId) ∈ nodes ∧ (tl, e.tgtId) ∈ nodes ∧
        (some e.srcId, some e.tgtId) ∈ rows)) := by
  constructor
  · unfold createFkRels
    rw [foldl_fkRelStep_count nodes sl tl rt _ ([], 0), List.filter_filter]
    simp
  · intro e
    unfold createFkRels
    rw [foldl_fkRelStep_mem nodes sl tl rt _ ([], 0) e]
    simp only [List.not_mem_nil, false_or]
    constructor
    · rintro ⟨h1, h2, h3, h4, h5, h6⟩
      exact ⟨h1, h2, h3, h4, h5, (List.mem_filter.mp h6).1⟩
    · rintro ⟨h1, h2, h3, h4, h5, h6⟩
      exact ⟨h1, h2, h3, h4, h5, List.mem_filter.mpr ⟨h6, rfl⟩⟩

/-- `find?` returns the head of the filtered list. -/
theorem find?_eq_head_filter {α : Type} (p : α → Bool) :
    ∀ l : List α, l.find? p = (l.filter p).head?
  | [] => rfl
  | a :: rest => by
    rw [List.find?_cons, List.filter_cons]
    by_cases h : p a = true
    · rw [h]
      rfl
    · have h2 : p a = false := by revert h; cases p a <;> simp
      rw [h2]
      exact find?_eq_head_filter p rest

/-- C8: introspection records as primary key the first column whose
`PRAGMA table_info` pk flag is set, when one exists; otherwise the first
column in declaration order; and it fails with the typed `FileNotFoundError`
exactly when the source path is unreachable (for a reachable source it
returns every table's schema).  The model performs only reads: the schema is
a pure function of the source. -/
theorem c8_introspection_contract :
    (ingestAllTables none = .error .fileNotFound) ∧
    (∀ db : List SrcTable,
      ingestAllTables (some db) =
        .ok (db.map (fun t => ⟨t.name, autoPk t.cols, nRows t⟩))) ∧
    (∀ (cols : List SrcColumn) (c : SrcColumn),
      (cols.filter (fun x => x.pkFlag != 0)).head? = some c →
      autoPk cols = some c.name) ∧
    (∀ cols : List SrcColumn,
      cols.filter (fun x => x.pkFlag != 0) = [] →
      autoPk cols = cols.head?.map (fun x => x.name)) := by
  refine ⟨rfl, fun db => rfl, ?_, ?_⟩
  · intro cols c h
    unfold autoPk
    rw [find?_eq_head_filter, h]
  · intro cols h
    unfold autoPk
    rw [find?_eq_head_filter, h]
    rfl

/-- Witness for C8: a declared key on the second column wins over declaration
order; with no declared key the first column is chosen. -/
theorem c8_introspection_contract_witness :
    ([⟨cps "a", 0, []⟩, ⟨cps "b", 1, []⟩].filter
        (fun x => SrcColumn.pkFlag x != 0)).head? = some ⟨cps "b", 1, []⟩ ∧
    autoPk [⟨cps "a", 0, []⟩, ⟨cps "b", 1, []⟩] = some (cps "b") ∧
    ([⟨cps "a", 0, []⟩].filter (fun x => SrcColumn.pkFlag x != 0)) = [] ∧
    autoPk [⟨cps "a", 0, []⟩] = [⟨cps "a", 0, []⟩].head?.map
      (fun x => SrcColumn.name x) :=
  ⟨by decide,
    c8_introspection_contract.2.2.1 [⟨cps "a", 0, []⟩, ⟨cps "b", 1, []⟩]
      ⟨cps "b", 1, []⟩ (by decide),
    by decide,
    c8_introspection_contract.2.2.2 [⟨cps "a", 0, []⟩] (by decide)⟩

/-- Deduplication never lengthens a list. -/
theorem dedupFirstAux_length_le [DecidableEq α] :
    ∀ (l seen : List α), (dedupFirstAux l seen).length ≤ l.length
  | [], _ => Nat.le_refl 0
  | a :: rest, seen => by
    unfold dedupFirstAux
    by_cases h : a ∈ seen
    · rw [if_pos h]
      exact Nat.le_succ_of_le (dedupFirstAux_length_le rest seen)
    · rw [if_neg h]
      exact Nat.succ_le_succ (dedupFirstAux_length_le rest (a :: seen))

/-- The number of Category Nodes a table produces never exceeds 20. -/
theorem processCat_nodes_le (t : SrcTable) (c : CP) :
    (processCat t c).nodes.length ≤ 20 := by
  unfold processCat
  simp only
  refine le_trans (dedupFirstAux_length_le _ _) ?_
  rw [List.length_map]
  refine le_trans (List.length_filterMap_le _ _) ?_
  rw [List.length_take]
  exact min_le_left _ _

/-- The categorical scan processes exactly the first priority-list name
present among the table's columns. -/
theorem catForTableAux_first (t : SrcTable) :
    ∀ pcols : List CP, (catForTableAux t pcols).map (fun r => r.colName) =
      pcols.find? (fun c => (t.cols.map (fun x => x.name)).contains c)
  | [] => rfl
  | c :: rest => by
    unfold catForTableAux
    rw [List.find?_cons]
    by_cases h : (t.cols.map (fun x => x.name)).contains c = true
    · rw [if_pos h, h]
      rfl
    · have h2 : (t.cols.map (fun x => x.name)).contains c = false := by
        revert h; cases (t.cols.map (fun x => x.name)).contains c <;> simp
      rw [if_neg h, h2]
      exact catForTableAux_first t rest

/-- A successful categorical scan processed some column via `processCat`. -/
theorem catForTableAux_some (t : SrcTable) :
    ∀ (pcols : List CP) (r : CatResult),
      catForTableAux t pcols = some r → ∃ c, r = processCat t c
  | [], r, h => by cases h
  | c :: rest, r, h => by
    unfold catForTableAux at h
    by_cases hc : (t.cols.map (fun x => x.name)).contains c = true
    · rw [if_pos hc] at h
      exact ⟨c, (Option.some.inj h).symm⟩
    · rw [if_neg hc] at h
      exact catForTableAux_some t rest r h

/-- An edge `(row key, category name)` exists exactly for a created Category
Node and a row whose stored value is the text of that name. -/
theorem processCat_edges_mem (t : SrcTable) (c : CP) (p : Val) (nm : CP) :
    (p, nm) ∈ (processCat t c).edges ↔
      (nm ∈ (processCat t c).nodes ∧
        (some p, some (Val.vtext nm)) ∈
          (colVals t (tablePk t)).zip (colVals t c)) := by
  unfold processCat
  simp only [mem_dedupFirst, List.mem_flatten, List.mem_map, List.mem_filterMap]
  constructor
  · rintro ⟨es, ⟨d, ⟨cat, hcat, hf⟩, rfl⟩, hmem⟩
    by_cases hstrip : pyStrip (pyStr cat) ≠ []
    · rw [if_pos hstrip] at hf
      by_cases hes : dedupFirst
          (((colVals t (tablePk t)).zip (colVals t c)).filterMap (fun pv =>
            match pv.1, pv.2 with
            | some q, some v =>
              if v = Val.vtext (pyStr cat) then some (q, pyStr cat) else none
            | _, _ => none)) ≠ []
      · rw [if_pos hes] at hf
        cases Option.some.inj hf
        rw [mem_dedupFirst] at hmem
        rcases List.mem_filterMap.mp hmem with ⟨⟨pv1, pv2⟩, hpv, hg⟩
        rcases pv1 with _ | q
        · cases hg
        · rcases pv2 with _ | v
          · cases hg
          · have hg2 : (if v = Val.vtext (pyStr cat)
                then some (q, pyStr cat) else none) = some (p, nm) := hg
            by_cases hv : v = Val.vtext (pyStr cat)
            · rw [if_pos hv] at hg2
              simp only [Option.some.injEq, Prod.mk.injEq] at hg2
              obtain ⟨rfl, rfl⟩ := hg2
              subst hv
              exact ⟨⟨_, ⟨cat, hcat, by rw [if_pos hstrip, if_pos hes]⟩, rfl⟩, hpv⟩
            · rw [if_neg hv] at hg2
              cases hg2
      · rw [if_neg hes] at hf
        cases hf
    · rw [if_neg hstrip] at hf
      cases hf
  · rintro ⟨⟨d, ⟨cat, hcat, hf⟩, hd1⟩, hzip⟩
    by_cases hstrip : pyStrip (pyStr cat) ≠ []
    · rw [if_pos hstrip] at hf
      by_cases hes : dedupFirst
          (((colVals t (tablePk t)).zip (colVals t c)).filterMap (fun pv =>
            match pv.1, pv.2 with
            | some q, some v =>
              if v = Val.vtext (pyStr cat) then some (q, pyStr cat) else none
            | _, _ => none)) ≠ []
      · rw [if_pos hes] at hf
        cases Option.some.inj hf
        have hnm : pyStr cat = nm := hd1
        refine ⟨_, ⟨_, ⟨cat, hcat, by rw [if_pos hstrip, if_pos hes]⟩, rfl⟩, ?_⟩
        rw [mem_dedupFirst]
        refine List.mem_filterMap.mpr ⟨(some p, some (Val.vtext nm)), hzip, ?_⟩
        show (if Val.vtext nm = Val.vtext (pyStr cat)
          then some (p, pyStr cat) else none) = some (p, nm)
        rw [hnm, if_pos rfl]
      · rw [if_neg hes] at hf
        cases hf
    · rw [if_neg hstrip] at hf
      cases hf

/-- A table whose `category` column holds 50 distinct non-blank text values. -/
def c6CleanTable : SrcTable :=
  ⟨cps "shop",
    [⟨cps "id", 1, (List.range 50).map (fun i => some (Val.vint (Int.ofNat i)))⟩,
     ⟨cps "category", 0,
       (List.range 50).map (fun i => some (Val.vtext (natToDigits (i + 100))))⟩]⟩

/-- The same table except that the first distinct value is a lone space. -/
def c6BlankTable : SrcTable :=
  ⟨cps "shop",
    [⟨cps "id", 1, (List.range 50).map (fun i => some (Val.vint (Int.ofNat i)))⟩,
     ⟨cps "category", 0,
       some (Val.vtext [32]) ::
         (List.range 49).map (fun i => some (Val.vtext (natToDigits (i + 100))))⟩]⟩

/-- C6 counterexample: the code takes the first 20 **distinct** values and
only then discards blank ones, so a table with 50 distinct values whose first
distinct value is whitespace yields 19 Category Nodes — not exactly 20 as the
claim states. -/
theorem c6_blank_in_first_twenty_counterexample :
    (catForTable c6BlankTable).map (fun r => r.nodes.length) = some 19 ∧
    ¬((catForTable c6BlankTable).map (fun r => r.nodes.length) = some 20) := by
  refine ⟨by decide, by decide⟩

/-- C6 as amended: per table at most one categorical column is processed — the
first name of the fixed priority list present among the columns; the created
Category Nodes are the non-blank values among the first 20 distinct values,
hence never more than 20 (exactly 20 for 50 distinct values only when no
blank occurs among the first 20); and every row whose stored value is the
text of a created Category Node gets one `HAS_<COLUMN>` edge. -/
theorem c6_categorical_first_match_and_cap :
    (∀ t : SrcTable, (catForTable t).map (fun r => r.colName) =
      categoricalCols.find? (fun c => (t.cols.map (fun x => x.name)).contains c)) ∧
    (∀ (t : SrcTable) (r : CatResult), catForTable t = some r →
      r.nodes.length ≤ 20) ∧
    (∀ (t : SrcTable) (c : CP) (p : Val) (nm : CP),
      (p, nm) ∈ (processCat t c).edges ↔
        (nm ∈ (processCat t c).nodes ∧
          (some p, some (Val.vtext nm)) ∈
            (colVals t (tablePk t)).zip (colVals t c))) ∧
    ((catForTable c6CleanTable).map (fun r => r.nodes.length) = some 20) := by
  refine ⟨?_, ?_, processCat_edges_mem, by decide⟩
  · intro t
    exact catForTableAux_first t categoricalCols
  · intro t r h
    obtain ⟨c, rfl⟩ := catForTableAux_some t categoricalCols r h
    exact processCat_nodes_le t c

/-- Witness for C6: the clean 50-value table is processed through its
`category` column and its Category-Node count obeys the bound. -/
theorem c6_categorical_first_match_and_cap_witness :
    catForTable c6CleanTable = some (processCat c6CleanTable (cps "category")) ∧
    (processCat c6CleanTable (cps "category")).nodes.length ≤ 20 :=
  ⟨by decide,
    c6_categorical_first_match_and_cap.2.1 c6CleanTable
      (processCat c6CleanTable (cps "category")) (by decide)⟩

/-- A service behaviour whose SQL-query generation raises; everything else
succeeds. -/
def svcGenFail : Services :=
  ⟨fun _ => .error "llm unavailable",
   fun _ => .ok [], fun _ => .ok ("ans", ""),
   fun _ => .ok "MATCH (n) RETURN n", fun _ => .ok [], fun _ => .ok ("ans", ""),
   fun _ => .ok "fallback", .ok "Nodes: X"⟩

/-- C3 counterexample: the query-generation calls sit outside the `try`
blocks, so a raising text-generation service makes `dual_path_query`
propagate the exception to its caller, contradicting "never propagates an
exception ... for any behaviour of the external services". -/
theorem c3_generation_failure_propagates :
    dualPathQuery svcGenFail "Table t: a" = .error "llm unavailable" := rfl

/-- Per-branch description of `_sql_path` when generation and (if needed)
fallback generation succeed. -/
theorem sqlPath_spec (svc : Services) (schema q1 fsql : String)
    (h1 : svc.generateSql schema = .ok q1)
    (h3 : svc.generateFallbackAnswer "SQL" = .ok fsql) :
    ∃ rs, sqlPath svc schema = .ok rs ∧ rs.method = "SQL" ∧ rs.query = q1 ∧
      (∀ err, sqlTryRun svc q1 = .error err →
        rs.answer = fsql ∧ rs.rowCount = 0 ∧ rs.data = [] ∧
        rs.explanation = "Query failed: " ++ err ++ " - using schema knowledge") ∧
      (∀ data a e, sqlTryRun svc q1 = .ok (data, a, e) →
        rs.data = data ∧ rs.rowCount = data.length ∧ rs.answer = a ∧
        rs.explanation = e) := by
  have hgen : sqlPath svc schema = sqlPathAfterGen svc q1 := by
    unfold sqlPath
    rw [h1]
  cases htry : sqlTryRun svc q1 with
  | ok v =>
    obtain ⟨data, a, e⟩ := v
    have hpath : sqlPathAfterGen svc q1 = .ok ⟨"SQL", q1, data, data.length, a, e⟩ := by
      unfold sqlPathAfterGen
      rw [htry]
    refine ⟨⟨"SQL", q1, data, data.length, a, e⟩, hgen.trans hpath, rfl, rfl, ?_, ?_⟩
    · intro err herr
      exact Except.noConfusion herr
    · intro data2 a2 e2 hok
      have h5 := Except.ok.inj hok
      simp only [Prod.mk.injEq] at h5
      obtain ⟨rfl, rfl, rfl⟩ := h5
      exact ⟨rfl, rfl, rfl, rfl⟩
  | error err =>
    have hpath : sqlPathAfterGen svc q1 = .ok ⟨"SQL", q1, [], 0, fsql,
        "Query failed: " ++ err ++ " - using schema knowledge"⟩ := by
      unfold sqlPathAfterGen
      rw [htry, h3]
    refine ⟨_, hgen.trans hpath, rfl, rfl, ?_, ?_⟩
    · intro err2 herr
      cases Except.error.inj herr
      exact ⟨rfl, rfl, rfl, rfl⟩
    · intro data2 a2 e2 hok
      exact Except.noConfusion hok

/-- Per-branch description of `_cypher_path` when translation and (if needed)
fallback generation succeed. -/
theorem cypherPath_spec (svc : Services) (q2 fcy : String)
    (h2 : svc.translateCypher (getKgSchema svc) = .ok q2)
    (h4 : svc.generateFallbackAnswer "Cypher" = .ok fcy) :
    ∃ rc, cypherPath svc = .ok rc ∧ rc.method = "Knowledge Graph" ∧
      rc.query = q2 ∧
      (∀ err, cypherTryRun svc q2 = .error err →
        rc.answer = fcy ∧ rc.rowCount = 0 ∧ rc.data = [] ∧
        rc.explanation =
          "Query failed: " ++ err ++ " - using graph schema knowledge") ∧
      (∀ data a e, cypherTryRun svc q2 = .ok (data, a, e) →
        rc.data = data ∧ rc.rowCount = data.length ∧ rc.answer = a ∧
        rc.explanation = e) := by
  have hgen : cypherPath svc = cypherPathAfterGen svc q2 := by
    unfold cypherPath
    rw [h2]
  cases htry : cypherTryRun svc q2 with
  | ok v =>
    obtain ⟨data, a, e⟩ := v
    have hpath : cypherPathAfterGen svc q2 =
        .ok ⟨"Knowledge Graph", q2, data, data.length, a, e⟩ := by
      unfold cypherPathAfterGen
      rw [htry]
    refine ⟨⟨"Knowledge Graph", q2, data, data.length, a, e⟩,
      hgen.trans hpath, rfl, rfl, ?_, ?_⟩
    · intro err herr
      exact Except.noConfusion herr
    · intro data2 a2 e2 hok
      have h5 := Except.ok.inj hok
      simp only [Prod.mk.injEq] at h5
      obtain ⟨rfl, rfl, rfl⟩ := h5
      exact ⟨rfl, rfl, rfl, rfl⟩
  | error err =>
    have hpath : cypherPathAfterGen svc q2 = .ok ⟨"Knowledge Graph", q2, [], 0,
        fcy, "Query failed: " ++ err ++ " - using graph schema knowledge"⟩ := by
      unfold cypherPathAfterGen
      rw [htry, h4]
    refine ⟨_, hgen.trans hpath, rfl, rfl, ?_, ?_⟩
    · intro err2 herr
      cases Except.error.inj herr
      exact ⟨rfl, rfl, rfl, rfl⟩
    · intro data2 a2 e2 hok
      exact Except.noConfusion hok

/-- C3 as amended: `dual_path_query` catches query-execution and
answer-synthesis failures (returning per-path fallback answers with a
`Query failed:` explanation) and otherwise returns each path's structured
result with its generated query string and row/result count — but only when
the query-generation calls and, on the failure branches, the fallback
generation succeed: those calls sit outside the `try` blocks, and their
exceptions propagate to the caller. -/
theorem c3_dual_path_structured (svc : Services) (schema q1 q2 fsql fcy : String)
    (h1 : svc.generateSql schema = .ok q1)
    (h2 : svc.translateCypher (getKgSchema svc) = .ok q2)
    (h3 : svc.generateFallbackAnswer "SQL" = .ok fsql)
    (h4 : svc.generateFallbackAnswer "Cypher" = .ok fcy) :
    ∃ rs rc, dualPathQuery svc schema = .ok (rs, rc) ∧
      rs.method = "SQL" ∧ rs.query = q1 ∧
      rc.method = "Knowledge Graph" ∧ rc.query = q2 ∧
      (∀ err, sqlTryRun svc q1 = .error err →
        rs.answer = fsql ∧ rs.rowCount = 0 ∧
        rs.explanation = "Query failed: " ++ err ++ " - using schema knowledge") ∧
      (∀ data a e, sqlTryRun svc q1 = .ok (data, a, e) →
        rs.rowCount = data.length ∧ rs.answer = a) ∧
      (∀ err, cypherTryRun svc q2 = .error err →
        rc.answer = fcy ∧ rc.rowCount = 0 ∧
        rc.explanation =
          "Query failed: " ++ err ++ " - using graph schema knowledge") ∧
      (∀ data a e, cypherTryRun svc q2 = .ok (data, a, e) →
        rc.rowCount = data.length ∧ rc.answer = a) := by
  obtain ⟨rs, hrs, hm1, hq1, herr1, hok1⟩ := sqlPath_spec svc schema q1 fsql h1 h3
  obtain ⟨rc, hrc, hm2, hq2, herr2, hok2⟩ := cypherPath_spec svc q2 fcy h2 h4
  refine ⟨rs, rc, ?_, hm1, hq1, hm2, hq2, ?_, ?_, ?_, ?_⟩
  · unfold dualPathQuery
    rw [hrs, hrc]
  · intro err h
    exact ⟨(herr1 err h).1, (herr1 err h).2.1, (herr1 err h).2.2.2⟩
  · intro data a e h
    exact ⟨(hok1 data a e h).2.1, (hok1 data a e h).2.2.1⟩
  · intro err h
    exact ⟨(herr2 err h).1, (herr2 err h).2.1, (herr2 err h).2.2.2⟩
  · intro data a e h
    exact ⟨(hok2 data a e h).2.1, (hok2 data a e h).2.2.1⟩

/-- A service behaviour where everything succeeds except the SQL execution,
which raises. -/
def svcSqlExecFail : Services :=
  ⟨fun _ => .ok "SELECT 1",
   fun _ => .error "syntax error", fun _ => .ok ("ans", ""),
   fun _ => .ok "MATCH (n) RETURN n",
   fun _ => .ok [["row"]], fun _ => .ok ("kg answer", ""),
   fun m => .ok ("fallback " ++ m), .ok "Nodes: X"⟩

/-- Witness for C3's amended contract at a concrete behaviour: SQL execution
fails, and the orchestrator still returns a pair of structured results. -/
theorem c3_dual_path_structured_witness :
    svcSqlExecFail.generateSql "s" = .ok "SELECT 1" ∧
    svcSqlExecFail.translateCypher (getKgSchema svcSqlExecFail) =
      .ok "MATCH (n) RETURN n" ∧
    svcSqlExecFail.generateFallbackAnswer "SQL" = .ok "fallback SQL" ∧
    svcSqlExecFail.generateFallbackAnswer "Cypher" = .ok "fallback Cypher" ∧
    ∃ rs rc, dualPathQuery svcSqlExecFail "s" = .ok (rs, rc) ∧
      rs.method = "SQL" ∧ rs.query = "SELECT 1" ∧
      rc.method = "Knowledge Graph" ∧ rc.query = "MATCH (n) RETURN n" ∧
      (∀ err, sqlTryRun svcSqlExecFail "SELECT 1" = .error err →
        rs.answer = "fallback SQL" ∧ rs.rowCount = 0 ∧
        rs.explanation = "Query failed: " ++ err ++ " - using schema knowledge") ∧
      (∀ data a e, sqlTryRun svcSqlExecFail "SELECT 1" = .ok (data, a, e) →
        rs.rowCount = data.length ∧ rs.answer = a) ∧
      (∀ err, cypherTryRun svcSqlExecFail "MATCH (n) RETURN n" = .error err →
        rc.answer = "fallback Cypher" ∧ rc.rowCount = 0 ∧
        rc.explanation =
          "Query failed: " ++ err ++ " - using graph schema knowledge") ∧
      (∀ data a e,
        cypherTryRun svcSqlExecFail "MATCH (n) RETURN n" = .ok (data, a, e) →
        rc.rowCount = data.length ∧ rc.answer = a) :=
  ⟨rfl, rfl, rfl, rfl,
    c3_dual_path_structured svcSqlExecFail "s" "SELECT 1" "MATCH (n) RETURN n"
      "fallback SQL" "fallback Cypher" rfl rfl rfl rfl⟩

/-- Every edge kind a source table produces targets a table with a different
name: the pair loop skips `source_table == target_table`. -/
theorem fkForSource_no_self (s : SrcTable) (nodes : List (CP × Val))
    (chkFor : SrcTable → SrcTable → Chk) :
    ∀ (ts : List SrcTable) (k : FkKind),
      k ∈ (fkForSource s nodes chkFor ts).2.1 → k.src ≠ k.tgt
  | [], k, hk => absurd hk (List.not_mem_nil k)
  | t :: rest, k, hk => by
    unfold fkForSource at hk
    by_cases he : s.name = t.name
    · rw [if_pos he] at hk
      exact fkForSource_no_self s nodes chkFor rest k hk
    · rw [if_neg he] at hk
      cases hd : detectFkToTargetP s.cols (nRows s) t.name (tablePk t)
          (chkFor s t) with
      | none =>
        rw [hd] at hk
        exact fkForSource_no_self s nodes chkFor rest k hk
      | some fkCol =>
        rw [hd] at hk
        have hk2 : k ∈ (⟨s.name, t.name, fkRelType fkCol⟩ : FkKind) ::
            (fkForSource s nodes chkFor rest).2.1 := hk
        rcases List.mem_cons.mp hk2 with rfl | hk3
        · exact he
        · exact fkForSource_no_self s nodes chkFor rest k hk3

/-- No edge kind of the whole pair loop is a self-reference. -/
theorem fkAllAux_no_self (db : List SrcTable) (nodes : List (CP × Val))
    (chkFor : SrcTable → SrcTable → Chk) :
    ∀ (srcs : List SrcTable) (k : FkKind),
      k ∈ (fkAllAux db nodes chkFor srcs).2.1 → k.src ≠ k.tgt
  | [], k, hk => absurd hk (List.not_mem_nil k)
  | s :: rest, k, hk => by
    unfold fkAllAux at hk
    have hk2 : k ∈ (fkForSource s nodes chkFor db).2.1 ++
        (fkAllAux db nodes chkFor rest).2.1 := hk
    rcases List.mem_append.mp hk2 with h | h
    · exact fkForSource_no_self s nodes chkFor db k h
    · exact fkAllAux_no_self db nodes chkFor rest k h

/-- The `employees(emp_id PK, manager_id, department)` table of the
end-to-end scenario: `manager_id` values are a subset of `emp_id` values with
full sample overlap, and `department` has five distinct values. -/
def empTable : SrcTable :=
  ⟨cps "employees",
    [⟨cps "emp_id", 1, [some (.vint 1), some (.vint 2), some (.vint 3),
        some (.vint 4), some (.vint 5)]⟩,
     ⟨cps "manager_id", 0, [some (.vint 1), some (.vint 1), some (.vint 2),
        some (.vint 2), some (.vint 3)]⟩,
     ⟨cps "department", 0, [some (.vtext (cps "Sales")),
        some (.vtext (cps "HR")), some (.vtext (cps "IT")),
        some (.vtext (cps "Ops")), some (.vtext (cps "Fin"))]⟩]⟩

/-- The single-table source of the scenario. -/
def empDb : List SrcTable := [empTable]

/-- C1 counterexample: on the `employees` source the conversion produces NO
reference edge kind at all — in particular no `REFERENCES_MANAGER_ID` from
`employees` to `employees` — because `_create_all_fk_relationships` skips
every pair with `source_table == target_table`. -/
theorem c1_self_reference_counterexample :
    (convertAllTables empDb (dbChkFor empDb)).fkKinds = [] ∧
    ¬(∃ k ∈ (convertAllTables empDb (dbChkFor empDb)).fkKinds,
        k.relType = cps "REFERENCES_MANAGER_ID") := by
  refine ⟨by decide, by decide⟩

/-- C1 as amended: conversion never produces a self-referencing edge kind
(same-table pairs are skipped), and on the `employees` source it still
produces the categorical part of the scenario: `HAS_DEPARTMENT` edges from
each of the five rows to one Category Node per distinct department value. -/
theorem c1_conversion_skips_self_pairs :
    (∀ (db : List SrcTable) (chkFor : SrcTable → SrcTable → Chk) (k : FkKind),
        k ∈ (convertAllTables db chkFor).fkKinds → k.src ≠ k.tgt) ∧
    ((convertAllTables empDb (dbChkFor empDb)).cats =
      [(cps "employees", some ⟨cps "department", cps "HAS_DEPARTMENT",
        [cps "Sales", cps "HR", cps "IT", cps "Ops", cps "Fin"],
        [(Val.vint 1, cps "Sales"), (Val.vint 2, cps "HR"),
         (Val.vint 3, cps "IT"), (Val.vint 4, cps "Ops"),
         (Val.vint 5, cps "Fin")]⟩)]) := by
  constructor
  · intro db chkFor k hk
    have hk2 : k ∈ (fkAllAux db (baseNodes db) chkFor db).2.1 := hk
    exact fkAllAux_no_self db (baseNodes db) chkFor db k hk2
  · decide

/-- A two-table source whose `orders.customer_id` column is detected as a
reference to `customers`. -/
def ordersTable : SrcTable :=
  ⟨cps "orders",
    [⟨cps "order_id", 1, [some (.vint 1), some (.vint 2), some (.vint 3)]⟩,
     ⟨cps "customer_id", 0, [some (.vint 1), some (.vint 2), some (.vint 2)]⟩]⟩

/-- The referenced table of the two-table source. -/
def customersTable : SrcTable :=
  ⟨cps "customers",
    [⟨cps "customer_id", 1, [some (.vint 1), some (.vint 2), some (.vint 3)]⟩]⟩

/-- The two-table source. -/
def shopDb : List SrcTable := [ordersTable, customersTable]

/-- Witness for C1's amended statement: a concretely produced edge kind
(`orders → customers`) indeed relates two differently named tables. -/
theorem c1_conversion_skips_self_pairs_witness :
    (⟨cps "orders", cps "customers", cps "REFERENCES_CUSTOMER_ID"⟩ : FkKind) ∈
      (convertAllTables shopDb (dbChkFor shopDb)).fkKinds ∧
    cps "orders" ≠ cps "customers" :=
  ⟨by decide,
    c1_conversion_skips_self_pairs.1 shopDb (dbChkFor shopDb)
      ⟨cps "orders", cps "customers", cps "REFERENCES_CUSTOMER_ID"⟩ (by decide)⟩
